import Mathlib

/-
  Shallow embedding of the pBFT replica (a PBFT-style replicated key-value
  store, Rust source under src/).  The modelled units are:

  * src/messages.rs      — message structures, `ClientRequest::digest`,
                           `PrePrepare::new_with_signature`,
                           `Prepare::is_properly_signed_by`;
  * src/consensus.rs     — the consensus engine: `State`, `InnerConsensus`,
                           the admission predicates `should_accept_*`,
                           `InnerConsensus::process_message`, and the
                           `ConsensusCommand` handlers of `Consensus::spawn`;
  * src/message_bank.rs  — the (unused by the engine) `MessageBank`;
  * src/node.rs          — `InnerNode::broadcast`;
  * src/config.rs        — the cluster configuration.

  Modelling conventions:
  * `usize` and `u32` values are `Nat`; `to_le_bytes` is made explicit with
    division and `% 256` (8 bytes for `usize`, 4 for `u32`).
  * Byte strings (`Vec<u8>`, `&[u8]`, UTF-8 of `String`) are `List Nat`.
  * A `SocketAddr` is identified with the byte list of its textual form
    (the code only compares addresses and feeds `to_string().as_bytes()`
    into the digest).
  * SHA-512 is modelled by the byte stream fed to the hasher: the code only
    ever compares digests of streams for equality, and equal streams have
    equal hashes.  A digest value is therefore the hashed stream itself.
  * `HashMap` is an association list whose `insert` replaces the binding;
    `HashSet` is a duplicate-free list whose `insert` is a no-op on members.
  * A Rust `unwrap` on a value that can be absent becomes `Option`, with
    `none` standing for the panic.
  * The tokio channels are made explicit: a command handler returns the new
    engine state together with the list of commands it emitted (to the node,
    i.e. send/broadcast, or back onto its own consensus queue).
-/

namespace PBFT

/-- `NodeId` from src/lib.rs (`pub type NodeId = usize`). -/
abbrev NodeId := Nat

/-- `Key` from src/lib.rs (`pub type Key = String`), as its UTF-8 bytes. -/
abbrev Key := List Nat

/-- `Value` from src/lib.rs (`pub type Value = u32`). -/
abbrev Value := Nat

/-- A byte string (`Vec<u8>`). -/
abbrev Bytes := List Nat

/-- A `SocketAddr`, identified with the bytes of its textual form. -/
abbrev Addr := List Nat

/-- `usize::to_le_bytes`: the 8 little-endian bytes of a machine word. -/
def usizeToLeBytes (n : Nat) : Bytes :=
  (List.range 8).map fun i => n / 2 ^ (8 * i) % 256

/-- `u32::to_le_bytes`: the 4 little-endian bytes of a 32-bit word. -/
def u32ToLeBytes (n : Nat) : Bytes :=
  (List.range 4).map fun i => n / 2 ^ (8 * i) % 256

/-- `ClientRequest` from src/messages.rs: `respond_addr`, `time_stamp`,
`key`, optional `value` (`None` denotes a get). -/
structure ClientRequest where
  respond_addr : Addr
  time_stamp : Nat
  key : Key
  value : Option Value
deriving DecidableEq

/-- `ClientRequest::digest` from src/messages.rs, as the byte stream fed to
the SHA-512 hasher: `respond_addr.to_string().as_bytes()`, then
`time_stamp.to_le_bytes()`, then `key.as_bytes()`, then — in two separate,
back-to-back conditional blocks, an `if let Some(value)` followed by an
`if self.value.is_some()` — the bytes of `value` are fed TWICE whenever the
value is present. -/
def ClientRequest.digestInput (r : ClientRequest) : Bytes :=
  r.respond_addr ++ usizeToLeBytes r.time_stamp ++ r.key
    ++ (match r.value with
        | some v => u32ToLeBytes v
        | none => [])
    ++ (match r.value with
        | some v => u32ToLeBytes v
        | none => [])

/-- The digest input as the specification describes it: the concatenation
`respond_addr ‖ timestamp ‖ key ‖ value?`, each of the four fields
contributing exactly once (the value only when present).  This definition
follows the spec's words and exists to be compared with
`ClientRequest.digestInput`, which follows the code. -/
def ClientRequest.digestInputSpec (r : ClientRequest) : Bytes :=
  r.respond_addr ++ usizeToLeBytes r.time_stamp ++ r.key
    ++ (match r.value with
        | some v => u32ToLeBytes v
        | none => [])

/-- `PrePrepare` from src/messages.rs.  The only message carrying the full
client request. -/
structure PrePrepare where
  id : NodeId
  view : Nat
  seq_num : Nat
  client_request_digest : Bytes
  signature : Bytes
  client_request : ClientRequest
deriving DecidableEq

/-- `Prepare` from src/messages.rs. -/
structure Prepare where
  id : NodeId
  view : Nat
  seq_num : Nat
  client_request_digest : Bytes
  signature : Bytes
deriving DecidableEq

/-- `Commit` from src/messages.rs. -/
structure Commit where
  id : NodeId
  view : Nat
  seq_num : Nat
  client_request_digest : Bytes
  signature : Bytes
deriving DecidableEq

/-- `ClientResponse` from src/messages.rs. -/
structure ClientResponse where
  id : NodeId
  time_stamp : Nat
  key : Key
  value : Option Value
  success : Bool
  signature : Bytes
deriving DecidableEq

/-- The `Message` variants dispatched by the consensus engine
(`InnerConsensus::process_message` in src/consensus.rs matches exactly
these five). -/
inductive Message where
  | PrePrepareMessage : PrePrepare → Message
  | PrepareMessage : Prepare → Message
  | CommitMessage : Commit → Message
  | ClientRequestMessage : ClientRequest → Message
  | ClientResponseMessage : ClientResponse → Message
deriving DecidableEq

/-- Replace the signature field of a message, leaving every other field
unchanged (`ClientRequest` carries no signature). -/
def Message.withSignature : Message → Bytes → Message
  | .PrePrepareMessage pp, sig => .PrePrepareMessage { pp with signature := sig }
  | .PrepareMessage p, sig => .PrepareMessage { p with signature := sig }
  | .CommitMessage c, sig => .CommitMessage { c with signature := sig }
  | .ClientRequestMessage r, _ => .ClientRequestMessage r
  | .ClientResponseMessage r, sig => .ClientResponseMessage { r with signature := sig }

/-- `PrePrepare::new_with_signature` from src/messages.rs, restricted to the
fields it computes deterministically.  The ed25519 signature bytes produced
by `sign_prehashed` are external cryptography and are passed in as a
parameter; the relevant behaviour is that `client_request_digest` is set to
`client_request.digest()`. -/
def PrePrepare.new_with_signature (sig : Bytes) (id view seq_num : Nat)
    (client_request : ClientRequest) : PrePrepare :=
  { id := id
    view := view
    seq_num := seq_num
    client_request_digest := client_request.digestInput
    signature := sig
    client_request := client_request }

/-- The ASCII bytes of the domain tag `b"Prepare"`. -/
def prepareTagBytes : Bytes := [80, 114, 101, 112, 97, 114, 101]

/-- The prehash stream of `Prepare::is_properly_signed_by` from
src/messages.rs: `b"Prepare"`, `view.to_le_bytes()`,
`seq_num.to_le_bytes()`, `client_request_digest`. -/
def Prepare.signedPrehashInput (p : Prepare) : Bytes :=
  prepareTagBytes ++ usizeToLeBytes p.view ++ usizeToLeBytes p.seq_num
    ++ p.client_request_digest

/-- `Prepare::is_properly_signed_by` from src/messages.rs.
`Signature::from_bytes(self.signature.as_slice()).unwrap()` panics unless
the signature is exactly 64 bytes (ed25519 signature length); the panic is
modelled as `none`.  The elliptic-curve verification itself is external
cryptography, abstracted as the oracle `verify` applied to the public key
and the prehash stream. -/
def Prepare.is_properly_signed_by (verify : Bytes → Bytes → Bool)
    (pub_key : Bytes) (p : Prepare) : Option Bool :=
  if p.signature.length = 64 then
    some (verify pub_key p.signedPrehashInput)
  else
    none

/-- `Config` from src/config.rs together with the fields the engine and the
node read from it (`num_nodes`, `num_faulty`, `peer_addrs`). -/
structure Config where
  num_nodes : Nat
  num_faulty : Nat
  peer_addrs : List (NodeId × Addr)
deriving DecidableEq

/-- The `ConsensusCommand` variants handled by `Consensus::spawn` in
src/consensus.rs. -/
inductive ConsensusCommand where
  | ProcessMessage : Message → ConsensusCommand
  | MisdirectedClientRequest : ClientRequest → ConsensusCommand
  | ProcessClientRequest : ClientRequest → ConsensusCommand
  | InitPrePrepare : ClientRequest → ConsensusCommand
  | AcceptPrePrepare : PrePrepare → ConsensusCommand
  | AcceptPrepare : Prepare → ConsensusCommand
  | EnterCommit : Prepare → ConsensusCommand
  | AcceptCommit : Commit → ConsensusCommand
  | InitViewChange : ClientRequest → ConsensusCommand
  | ApplyClientRequest : Commit → ConsensusCommand
deriving DecidableEq

/-- An effect emitted by a command handler: a `NodeCommand` (send to one
address, or broadcast) put on `tx_node`, or a `ConsensusCommand` put back on
`tx_consensus`. -/
inductive Output where
  | send : Addr → Message → Output
  | broadcast : Message → Output
  | toSelf : ConsensusCommand → Output
deriving DecidableEq

/-- `HashMap` lookup (association-list model). -/
def mlookup {κ α : Type} [DecidableEq κ] (m : List (κ × α)) (k : κ) : Option α :=
  match m with
  | [] => none
  | (k', v) :: rest => if k' = k then some v else mlookup rest k

/-- `HashMap::insert`: replace the binding of `k` if present, else add it. -/
def minsert {κ α : Type} [DecidableEq κ] (m : List (κ × α)) (k : κ) (v : α) :
    List (κ × α) :=
  match m with
  | [] => [(k, v)]
  | (k', v') :: rest =>
      if k' = k then (k, v) :: rest else (k', v') :: minsert rest k v

/-- `HashSet::insert` on a duplicate-free list: no-op on members. -/
def voteInsert (s : List NodeId) (id : NodeId) : List NodeId :=
  if id ∈ s then s else id :: s

/-- `HashSet<ClientRequest>::insert`. -/
def reqInsert (s : List ClientRequest) (r : ClientRequest) : List ClientRequest :=
  if r ∈ s then s else r :: s

/-- `HashSet<ClientRequest>::remove`. -/
def reqRemove (s : List ClientRequest) (r : ClientRequest) : List ClientRequest :=
  s.filter (fun x => x ≠ r)

/-- `State` from src/consensus.rs: `in_view_change`, `view`, `seq_num`, the
message `log`, and the applied key-value `store`. -/
structure NodeState where
  in_view_change : Bool
  view : Nat
  seq_num : Nat
  log : List Message
  store : List (Key × Value)
deriving DecidableEq

/-- `InnerConsensus` from src/consensus.rs (with the replica `id` and the
`Config` that `Consensus` holds alongside it): `requests_seen` maps
`(view, seq_num)` to the client request accepted by a pre-prepare,
`prepare_votes` and `commit_votes` map `(view, seq_num)` to vote sets, and
`outstanding_requests` backs the view-change timers. -/
structure InnerState where
  id : NodeId
  config : Config
  requests_seen : List ((Nat × Nat) × ClientRequest)
  prepare_votes : List ((Nat × Nat) × List NodeId)
  commit_votes : List ((Nat × Nat) × List NodeId)
  outstanding_requests : List ClientRequest
  state : NodeState
deriving DecidableEq

/-- `MessageBank` from src/message_bank.rs.  It is defined in the crate but
no consensus code constructs or mutates one: in particular its
`outstanding_prepares`, `outstanding_commits` and
`accepted_commits_not_applied` buffers are never written. -/
structure MessageBank where
  log : List Message
  accepted_pre_prepare_requests : List ((Nat × Nat) × PrePrepare)
  outstanding_prepares : List Prepare
  outstanding_commits : List Commit
  accepted_commits_not_applied : List (Nat × Commit)
  applied_commits : List (Nat × (Commit × ClientRequest))
deriving DecidableEq

/-- `Consensus::current_leader` from src/consensus.rs:
`state.view % self.config.num_nodes`. -/
def currentLeader (config : Config) (st : NodeState) : NodeId :=
  st.view % config.num_nodes

/-- `InnerConsensus::should_accept_pre_prepare` from src/consensus.rs.  The
body rejects on a view mismatch and then returns `true`; the digest,
duplicate-binding and leader checks exist only as comments. -/
def should_accept_pre_prepare (s : InnerState) (message : PrePrepare) : Bool :=
  if s.state.view ≠ message.view then
    false
  else
    true

/-- `InnerConsensus::should_accept_prepare` from src/consensus.rs: reject on
view mismatch; then require a request recorded in `requests_seen` at
`(message.view, message.seq_num)` whose hash equals the carried digest. -/
def should_accept_prepare (s : InnerState) (message : Prepare) : Bool :=
  if s.state.view ≠ message.view then
    false
  else
    match mlookup s.requests_seen (message.view, message.seq_num) with
    | some e_pre_prepare =>
        if message.client_request_digest ≠ e_pre_prepare.digestInput then
          false
        else
          true
    | none => false

/-- `InnerConsensus::should_accept_commit` from src/consensus.rs: the body
is literally `true`. -/
def should_accept_commit (_s : InnerState) (_message : Commit) : Bool :=
  true

/-- `InnerConsensus::should_process_client_request` from src/consensus.rs:
reject while in a view change, else accept. -/
def should_process_client_request (s : InnerState) (_request : ClientRequest) : Bool :=
  if s.state.in_view_change then
    false
  else
    true

/-- `InnerConsensus::process_message` from src/consensus.rs: dispatch on the
message variant, consult the matching admission predicate, and on success
enqueue the corresponding command on `tx_consensus`.  The function reads but
never writes the engine state, so it returns only the emitted commands. -/
def processMessage (s : InnerState) (message : Message) : List Output :=
  match message with
  | .PrePrepareMessage pre_prepare =>
      if should_accept_pre_prepare s pre_prepare then
        [.toSelf (.AcceptPrePrepare pre_prepare)]
      else
        []
  | .PrepareMessage prepare =>
      if should_accept_prepare s prepare then
        [.toSelf (.AcceptPrepare prepare)]
      else
        []
  | .CommitMessage commit =>
      if should_accept_commit s commit then
        [.toSelf (.AcceptCommit commit)]
      else
        []
  | .ClientRequestMessage client_request =>
      if should_process_client_request s client_request then
        [.toSelf (.ProcessClientRequest client_request)]
      else
        []
  | .ClientResponseMessage _ => []

/-- The `ConsensusCommand::InitPrePrepare` arm of `Consensus::spawn`:
construct a `PrePrepare` at the CURRENT `(view, seq_num)` — `seq_num` is not
incremented — with the request's hash as digest and the placeholder
signature `0` (modelled `[0]`), and broadcast it.  The state is returned
unchanged. -/
def handleInitPrePrepare (s : InnerState) (request : ClientRequest) :
    InnerState × List Output :=
  let pre_prepare : PrePrepare :=
    { id := s.id
      view := s.state.view
      seq_num := s.state.seq_num
      client_request_digest := request.digestInput
      signature := [0]
      client_request := request }
  (s, [.broadcast (.PrePrepareMessage pre_prepare)])

/-- The `ConsensusCommand::AcceptPrePrepare` arm of `Consensus::spawn`: add
the carried request to `outstanding_requests`, record it in `requests_seen`
under the replica's own current `(state.view, state.seq_num)`, broadcast a
`Prepare` echoing the digest, and append both messages to the log. -/
def handleAcceptPrePrepare (s : InnerState) (pre_prepare : PrePrepare) :
    InnerState × List Output :=
  let prepare : Prepare :=
    { id := s.id
      view := s.state.view
      seq_num := s.state.seq_num
      client_request_digest := pre_prepare.client_request_digest
      signature := [0] }
  let s' : InnerState :=
    { s with
      outstanding_requests := reqInsert s.outstanding_requests pre_prepare.client_request
      requests_seen :=
        minsert s.requests_seen (s.state.view, s.state.seq_num) pre_prepare.client_request
      state :=
        { s.state with
          log := s.state.log ++ [.PrePrepareMessage pre_prepare, .PrepareMessage prepare] } }
  (s', [.broadcast (.PrepareMessage prepare)])

/-- The `ConsensusCommand::AcceptPrepare` arm of `Consensus::spawn`: append
the prepare to the log; if a vote set for `(prepare.view, prepare.seq_num)`
already exists, insert `prepare.id` and — whenever the resulting size
exceeds `2 * num_faulty` — enqueue `EnterCommit(prepare)`; otherwise create
the vote set containing just `prepare.id` (with no threshold check). -/
def handleAcceptPrepare (s : InnerState) (prepare : Prepare) :
    InnerState × List Output :=
  let s1 : InnerState :=
    { s with state := { s.state with log := s.state.log ++ [.PrepareMessage prepare] } }
  match mlookup s.prepare_votes (prepare.view, prepare.seq_num) with
  | some curr_vote_set =>
      let votes' := voteInsert curr_vote_set prepare.id
      let s2 : InnerState :=
        { s1 with prepare_votes := minsert s.prepare_votes (prepare.view, prepare.seq_num) votes' }
      if votes'.length > 2 * s.config.num_faulty then
        (s2, [.toSelf (.EnterCommit prepare)])
      else
        (s2, [])
  | none =>
      ({ s1 with
          prepare_votes := minsert s.prepare_votes (prepare.view, prepare.seq_num) [prepare.id] },
       [])

/-- The `ConsensusCommand::EnterCommit` arm of `Consensus::spawn`: broadcast
a `Commit` at the replica's current `(state.view, state.seq_num)` echoing
the prepare's digest.  The state is unchanged. -/
def handleEnterCommit (s : InnerState) (prepare : Prepare) :
    InnerState × List Output :=
  let commit : Commit :=
    { id := s.id
      view := s.state.view
      seq_num := s.state.seq_num
      client_request_digest := prepare.client_request_digest
      signature := [0] }
  (s, [.broadcast (.CommitMessage commit)])

/-- The `ConsensusCommand::AcceptCommit` arm of `Consensus::spawn`: append
to the log and tally `commit.id` into `commit_votes` exactly as
`AcceptPrepare` does, enqueueing `ApplyClientRequest(commit)` whenever an
existing vote set's size exceeds `2 * num_faulty` after the insertion. -/
def handleAcceptCommit (s : InnerState) (commit : Commit) :
    InnerState × List Output :=
  let s1 : InnerState :=
    { s with state := { s.state with log := s.state.log ++ [.CommitMessage commit] } }
  match mlookup s.commit_votes (commit.view, commit.seq_num) with
  | some curr_vote_set =>
      let votes' := voteInsert curr_vote_set commit.id
      let s2 : InnerState :=
        { s1 with commit_votes := minsert s.commit_votes (commit.view, commit.seq_num) votes' }
      if votes'.length > 2 * s.config.num_faulty then
        (s2, [.toSelf (.ApplyClientRequest commit)])
      else
        (s2, [])
  | none =>
      ({ s1 with
          commit_votes := minsert s.commit_votes (commit.view, commit.seq_num) [commit.id] },
       [])

/-- The `ConsensusCommand::InitViewChange` arm of `Consensus::spawn`: do
nothing when already in a view change or when this replica is the leader;
otherwise set `in_view_change`. -/
def handleInitViewChange (s : InnerState) (_request : ClientRequest) :
    InnerState × List Output :=
  if s.state.in_view_change || currentLeader s.config s.state = s.id then
    (s, [])
  else
    ({ s with state := { s.state with in_view_change := true } }, [])

/-- `HashMap<Key, Value>::insert` on the store. -/
def storeInsert (store : List (Key × Value)) (k : Key) (v : Value) :
    List (Key × Value) :=
  minsert store k v

/-- The `ConsensusCommand::ApplyClientRequest` arm of `Consensus::spawn`:
look up the recorded request at `(commit.view, commit.seq_num)` with an
unconditional `unwrap` (`none` models the panic when nothing was recorded),
remove it from `outstanding_requests`, insert `(key, value)` into the store
when the request is a set, and increment `seq_num`.  No contiguity check is
made against any previously applied sequence number and nothing is parked. -/
def handleApplyClientRequest (s : InnerState) (commit : Commit) :
    Option (InnerState × List Output) :=
  match mlookup s.requests_seen (commit.view, commit.seq_num) with
  | none => none
  | some client_request =>
      let s1 : InnerState :=
        { s with outstanding_requests := reqRemove s.outstanding_requests client_request }
      let s2 : InnerState :=
        match client_request.value with
        | some v =>
            { s1 with state :=
                { s1.state with store := storeInsert s1.state.store client_request.key v } }
        | none => s1
      some ({ s2 with state := { s2.state with seq_num := s2.state.seq_num + 1 } }, [])

/-- `InnerNode::broadcast` from src/node.rs: `send_message` to every address
in `config.peer_addrs` — the loop has no exclusion of the replica's own
address. -/
def broadcastDestinations (config : Config) : List Addr :=
  config.peer_addrs.map fun p => p.2

/-- Fold a list of `AcceptPrepare` commands through `handleAcceptPrepare`,
accumulating every emitted command. -/
def runAcceptPrepares (s : InnerState) (ps : List Prepare) :
    InnerState × List Output :=
  ps.foldl
    (fun acc p =>
      let r := handleAcceptPrepare acc.1 p
      (r.1, acc.2 ++ r.2))
    (s, [])

/-- Count the `EnterCommit` commands for a given `(view, seq_num)` among a
list of emitted effects. -/
def countEnterCommit (outs : List Output) (v n : Nat) : Nat :=
  (outs.filter fun o =>
    match o with
    | .toSelf (.EnterCommit p) => decide (p.view = v ∧ p.seq_num = n)
    | _ => false).length

/-- A signature-verification oracle that rejects everything. -/
def falseVerify : Bytes → Bytes → Bool := fun _ _ => false

/-- A signature-verification oracle that accepts everything. -/
def trueVerify : Bytes → Bytes → Bool := fun _ _ => true

/- Concrete inputs used to evaluate the definitions. -/

/-- A four-replica configuration (n = 4, f = 1) with no peer addresses. -/
def cfg4 : Config := { num_nodes := 4, num_faulty := 1, peer_addrs := [] }

/-- A concrete set request: key byte 107, value 7. -/
def exReq : ClientRequest :=
  { respond_addr := [48], time_stamp := 1, key := [107], value := some 7 }

/-- A second concrete request with a different digest. -/
def exReq2 : ClientRequest :=
  { respond_addr := [49], time_stamp := 2, key := [108], value := none }

/-- A blank engine state over `cfg4` for replica 0 at view 0. -/
def blankState : InnerState :=
  { id := 0
    config := cfg4
    requests_seen := []
    prepare_votes := []
    commit_votes := []
    outstanding_requests := []
    state := { in_view_change := false, view := 0, seq_num := 0, log := [], store := [] } }

/-- A state at view 5, mid view change, with no votes collected. -/
def c1State : InnerState :=
  { blankState with
      state := { in_view_change := true, view := 5, seq_num := 0, log := [], store := [] } }

/-- A commit at view 0, which does not match the view of `c1State`. -/
def c1Commit : Commit :=
  { id := 2, view := 0, seq_num := 3, client_request_digest := [], signature := [] }

/-- Claim C1, counterexample: `should_accept_commit` accepts a commit whose
view differs from the current view, while the replica is in a view change,
and although not a single prepare vote has been collected at the commit
position (so no prepared predicate can hold). -/
theorem shouldAcceptCommit_unconditional_cex :
    should_accept_commit c1State c1Commit = true ∧
    c1Commit.view ≠ c1State.state.view ∧
    c1State.state.in_view_change = true ∧
    mlookup c1State.prepare_votes (c1Commit.view, c1Commit.seq_num) = none := by
  refine ⟨rfl, by decide, rfl, rfl⟩

/-- Claim C1 (amended): `should_accept_commit` returns `true` for every
commit and every state; no view, view-change or prepared check is
performed. -/
theorem shouldAcceptCommit_always_true (s : InnerState) (m : Commit) :
    should_accept_commit s m = true :=
  rfl

/-- A state at view 0, mid view change, with position (0, 1) already bound
to the request `exReq2`. -/
def c2State : InnerState :=
  { blankState with
      requests_seen := [((0, 1), exReq2)]
      state := { in_view_change := true, view := 0, seq_num := 0, log := [], store := [] } }

/-- A pre-prepare from replica 3 (not the leader of view 0) whose carried
digest matches neither its own request nor the request already bound at
(0, 1). -/
def c2Msg : PrePrepare :=
  { id := 3
    view := 0
    seq_num := 1
    client_request_digest := [9]
    signature := []
    client_request := exReq }

/-- Claim C2, counterexample: `should_accept_pre_prepare` accepts a message
although the replica is in a view change, the digest does not hash the
carried request, position (view, seq_num) is already bound to a different
digest, and the sender is not the current leader; only the view is
checked. -/
theorem shouldAcceptPrePrepare_view_only_cex :
    should_accept_pre_prepare c2State c2Msg = true ∧
    c2State.state.in_view_change = true ∧
    c2Msg.client_request_digest ≠ c2Msg.client_request.digestInput ∧
    mlookup c2State.requests_seen (c2Msg.view, c2Msg.seq_num) = some exReq2 ∧
    exReq2.digestInput ≠ c2Msg.client_request_digest ∧
    c2Msg.id ≠ currentLeader c2State.config c2State.state := by
  refine ⟨rfl, rfl, by decide, rfl, by decide, by decide⟩

/-- Claim C2 (amended): `should_accept_pre_prepare` returns `true` exactly
when the message view equals the current view; the digest, view-change,
duplicate-binding and leader conditions are not consulted. -/
theorem shouldAcceptPrePrepare_checks_only_view (s : InnerState) (m : PrePrepare) :
    should_accept_pre_prepare s m = true ↔ s.state.view = m.view := by
  unfold should_accept_pre_prepare
  split
  · simp_all
  · simp_all

/-- Claim C10: the `ApplyClientRequest` handler fails (the unconditional
`unwrap` panics) exactly when no client request was recorded in
`requests_seen` at `(commit.view, commit.seq_num)`; totality of the apply
step therefore requires that a request was recorded at that key. -/
theorem applyClientRequest_panics_iff_unseen (s : InnerState) (c : Commit) :
    handleApplyClientRequest s c = none ↔
      mlookup s.requests_seen (c.view, c.seq_num) = none := by
  unfold handleApplyClientRequest
  cases h : mlookup s.requests_seen (c.view, c.seq_num) <;> simp

/-- A state whose only recorded request sits at position (0, 5), with an
empty store and `seq_num` 0. -/
def c3State : InnerState :=
  { blankState with
      requests_seen := [((0, 5), exReq)]
      outstanding_requests := [exReq] }

/-- A commit at (0, 5); its sequence number is far beyond any successor of
the sequence counter of `c3State`. -/
def c3Commit : Commit :=
  { id := 2, view := 0, seq_num := 5, client_request_digest := [], signature := [] }

/-- Claim C3, counterexample: handling `ApplyClientRequest` with a commit
whose `seq_num` (5) is not the successor of any applied counter (the state
counter is 0) nevertheless applies the request — the store changes from
empty to holding the key — instead of parking it and leaving the store
unchanged.  (The engine state has no `accepted_commits_not_applied` buffer
at all; that buffer lives only in the unused `MessageBank`.) -/
theorem applyClientRequest_no_gap_check_cex :
    c3Commit.seq_num ≠ c3State.state.seq_num + 1 ∧
    c3State.state.store = [] ∧
    (handleApplyClientRequest c3State c3Commit).map (fun r => r.1.state.store) =
      some [([107], 7)] ∧
    (handleApplyClientRequest c3State c3Commit).map (fun r => r.1.state.seq_num) =
      some 1 := by
  refine ⟨by decide, rfl, rfl, rfl⟩

/-- Claim C3 (amended): the `ApplyClientRequest` handler applies
unconditionally.  Whenever a set request is recorded at
`(commit.view, commit.seq_num)`, the handler inserts its value into the
store, removes it from the outstanding set, and increments `seq_num` — for
any commit sequence number, with no contiguity check against previously
applied sequence numbers and without parking anything. -/
theorem applyClientRequest_applies_unconditionally
    (s : InnerState) (c : Commit) (cr : ClientRequest) (v : Value)
    (hseen : mlookup s.requests_seen (c.view, c.seq_num) = some cr)
    (hval : cr.value = some v) :
    handleApplyClientRequest s c =
      some
        ({ s with
            outstanding_requests := reqRemove s.outstanding_requests cr
            state :=
              { s.state with
                  store := storeInsert s.state.store cr.key v
                  seq_num := s.state.seq_num + 1 } },
          []) := by
  unfold handleApplyClientRequest
  rw [hseen]
  simp only [hval]

/-- Witness for the amended claim C3 at the concrete state `c3State` and
commit `c3Commit`. -/
theorem applyClientRequest_applies_unconditionally_witness :
    mlookup c3State.requests_seen (c3Commit.view, c3Commit.seq_num) = some exReq ∧
    exReq.value = some 7 ∧
    handleApplyClientRequest c3State c3Commit =
      some
        ({ c3State with
            outstanding_requests := reqRemove c3State.outstanding_requests exReq
            state :=
              { c3State.state with
                  store := storeInsert c3State.state.store exReq.key 7
                  seq_num := c3State.state.seq_num + 1 } },
          []) :=
  ⟨rfl, rfl, applyClientRequest_applies_unconditionally c3State c3Commit exReq 7 rfl rfl⟩

/-- A state with a request recorded at (0, 0), used to evaluate the apply
handler. -/
def c4State : InnerState :=
  { blankState with requests_seen := [((0, 0), exReq)] }

/-- A commit at (0, 0). -/
def c4Commit : Commit :=
  { id := 1, view := 0, seq_num := 0, client_request_digest := [], signature := [] }

/-- Claim C4: handling `InitPrePrepare` does NOT increment `seq_num` — it
returns the state unchanged and broadcasts a pre-prepare built at the
current `(view, seq_num)` with the placeholder signature — while the
`ApplyClientRequest` handler is the one that increments `seq_num` (here
from 0 to 1), on every replica.  This evaluates the code at the failing
input of the claim. -/
theorem seqNum_incremented_by_apply_not_initPrePrepare :
    (∀ (s : InnerState) (req : ClientRequest),
      handleInitPrePrepare s req =
        (s,
          [Output.broadcast
            (Message.PrePrepareMessage
              { id := s.id
                view := s.state.view
                seq_num := s.state.seq_num
                client_request_digest := req.digestInput
                signature := [0]
                client_request := req })])) ∧
    (handleApplyClientRequest c4State c4Commit).map (fun r => r.1.state.seq_num) =
      some (c4State.state.seq_num + 1) :=
  ⟨fun _ _ => rfl, rfl⟩

/-- Looking a key up right after `minsert` yields the inserted value. -/
theorem mlookup_minsert_self {κ α : Type} [DecidableEq κ]
    (m : List (κ × α)) (k : κ) (v : α) :
    mlookup (minsert m k v) k = some v := by
  induction m with
  | nil => simp [minsert, mlookup]
  | cons hd tl ih =>
      by_cases h : hd.1 = k
      · simp [minsert, mlookup, h]
      · simp [minsert, mlookup, h, ih]

/-- Inserting into a vote set never shrinks it. -/
theorem length_le_voteInsert (s : List NodeId) (i : NodeId) :
    s.length ≤ (voteInsert s i).length := by
  unfold voteInsert
  split
  · exact Nat.le_refl _
  · exact Nat.le_succ _

/-- The commands emitted by `handleAcceptPrepare`: `EnterCommit` exactly
when a vote set already existed and inserting the vote leaves its size
above 2f. -/
theorem acceptPrepare_outputs (s : InnerState) (p : Prepare) :
    (handleAcceptPrepare s p).2 =
      match mlookup s.prepare_votes (p.view, p.seq_num) with
      | some votes =>
          if (voteInsert votes p.id).length > 2 * s.config.num_faulty then
            [Output.toSelf (ConsensusCommand.EnterCommit p)]
          else
            []
      | none => [] := by
  unfold handleAcceptPrepare
  cases hm : mlookup s.prepare_votes (p.view, p.seq_num) with
  | none => rfl
  | some votes =>
      by_cases hc : (voteInsert votes p.id).length > 2 * s.config.num_faulty
      · simp [hc]
      · simp [hc]

/-- The prepare votes after `handleAcceptPrepare`: the vote set at the
position of the prepare grows by the vote (or is created from it). -/
theorem acceptPrepare_votes (s : InnerState) (p : Prepare) :
    (handleAcceptPrepare s p).1.prepare_votes =
      match mlookup s.prepare_votes (p.view, p.seq_num) with
      | some votes => minsert s.prepare_votes (p.view, p.seq_num) (voteInsert votes p.id)
      | none => minsert s.prepare_votes (p.view, p.seq_num) [p.id] := by
  unfold handleAcceptPrepare
  cases hm : mlookup s.prepare_votes (p.view, p.seq_num) with
  | none => rfl
  | some votes =>
      by_cases hc : (voteInsert votes p.id).length > 2 * s.config.num_faulty
      · simp [hc]
      · simp [hc]

/-- `handleAcceptPrepare` never changes the configuration. -/
theorem acceptPrepare_config (s : InnerState) (p : Prepare) :
    (handleAcceptPrepare s p).1.config = s.config := by
  unfold handleAcceptPrepare
  cases hm : mlookup s.prepare_votes (p.view, p.seq_num) with
  | none => rfl
  | some votes =>
      by_cases hc : (voteInsert votes p.id).length > 2 * s.config.num_faulty
      · simp [hc]
      · simp [hc]

/-- A prepare at position (0, 1) from replica `i`, with an empty digest. -/
def c5Prep (i : NodeId) : Prepare :=
  { id := i, view := 0, seq_num := 1, client_request_digest := [], signature := [] }

/-- Claim C5, counterexample: with f = 1, feeding the `AcceptPrepare`
handler prepares from replicas 1, 2, 3, 4 at the same (view, seq_num)
enqueues `EnterCommit` TWICE (at the third and again at the fourth vote),
not exactly once. -/
theorem enterCommit_not_exactly_once_cex :
    2 * blankState.config.num_faulty = 2 ∧
    countEnterCommit
      (runAcceptPrepares blankState [c5Prep 1, c5Prep 2, c5Prep 3, c5Prep 4]).2 0 1 = 2 := by
  refine ⟨rfl, by decide⟩

/-- Claim C5 (amended): `EnterCommit` is enqueued by `AcceptPrepare`
whenever a vote set for the position already existed and, after inserting
the vote, its size exceeds 2f — and therefore NOT exactly once: once an
`AcceptPrepare` has triggered `EnterCommit` for a position, the very next
`AcceptPrepare` for the same position triggers it again. -/
theorem enterCommit_retriggers (s : InnerState) (p q : Prepare)
    (hv : q.view = p.view) (hn : q.seq_num = p.seq_num)
    (h : (handleAcceptPrepare s p).2 = [Output.toSelf (ConsensusCommand.EnterCommit p)]) :
    (handleAcceptPrepare (handleAcceptPrepare s p).1 q).2 =
      [Output.toSelf (ConsensusCommand.EnterCommit q)] := by
  rw [acceptPrepare_outputs] at h
  cases hm : mlookup s.prepare_votes (p.view, p.seq_num) with
  | none => rw [hm] at h; simp at h
  | some votes =>
      rw [hm] at h
      by_cases ht : (voteInsert votes p.id).length > 2 * s.config.num_faulty
      · have hge : (voteInsert (voteInsert votes p.id) q.id).length >
            2 * s.config.num_faulty :=
          Nat.lt_of_lt_of_le ht (length_le_voteInsert _ _)
        rw [acceptPrepare_outputs, hv, hn, acceptPrepare_votes s p,
          acceptPrepare_config s p]
        simp only [hm, mlookup_minsert_self]
        simp [hge]
      · simp [ht] at h

/-- A state holding two prepare votes at (0, 1) already. -/
def c5WState : InnerState :=
  { blankState with prepare_votes := [((0, 1), [1, 2])] }

/-- Witness for the amended claim C5: from two collected votes, the prepare
of replica 3 crosses the 2f threshold and enqueues `EnterCommit`, and the
prepare of replica 4 immediately enqueues it again. -/
theorem enterCommit_retriggers_witness :
    (c5Prep 4).view = (c5Prep 3).view ∧
    (c5Prep 4).seq_num = (c5Prep 3).seq_num ∧
    (handleAcceptPrepare c5WState (c5Prep 3)).2 =
      [Output.toSelf (ConsensusCommand.EnterCommit (c5Prep 3))] ∧
    (handleAcceptPrepare (handleAcceptPrepare c5WState (c5Prep 3)).1 (c5Prep 4)).2 =
      [Output.toSelf (ConsensusCommand.EnterCommit (c5Prep 4))] :=
  ⟨rfl, rfl, by decide,
    enterCommit_retriggers c5WState (c5Prep 3) (c5Prep 4) rfl rfl (by decide)⟩

/-- A state at view 0 with the request `exReq` recorded at (0, 1). -/
def c6State : InnerState :=
  { blankState with requests_seen := [((0, 1), exReq)] }

/-- A prepare whose digest and view are right but whose signature is the
empty byte string — not even a well-formed ed25519 signature, hence invalid
under every verification oracle. -/
def c6Prep : Prepare :=
  { id := 2
    view := 0
    seq_num := 1
    client_request_digest := exReq.digestInput
    signature := [] }

/-- Claim C6, counterexample: a prepare carrying an invalid (zero-length)
signature is NOT silently dropped: `process_message` never verifies
signatures, so the message is accepted (an `AcceptPrepare` command is
enqueued, and handling it mutates the log); moreover even
`Prepare::is_properly_signed_by` would not return `false` on it but panic
inside `Signature::from_bytes` (modelled `none`). -/
theorem invalid_signature_not_dropped_cex :
    c6Prep.signature.length ≠ 64 ∧
    Prepare.is_properly_signed_by falseVerify [] c6Prep = none ∧
    processMessage c6State (Message.PrepareMessage c6Prep) =
      [Output.toSelf (ConsensusCommand.AcceptPrepare c6Prep)] ∧
    (handleAcceptPrepare c6State c6Prep).1.state.log ≠ c6State.state.log := by
  refine ⟨by decide, rfl, by decide, by decide⟩

/-- Claim C6 (amended): `process_message` is blind to signatures — a
message is dropped after replacing its signature by arbitrary bytes exactly
when the original is dropped, so invalidly signed messages are processed
exactly like validly signed ones. -/
theorem processMessage_signature_blind (s : InnerState) (m : Message) (sig : Bytes) :
    (processMessage s (m.withSignature sig) = []) ↔ (processMessage s m = []) := by
  cases m <;>
    simp [Message.withSignature, processMessage, should_accept_pre_prepare,
      should_accept_prepare, should_accept_commit, should_process_client_request]

/-- A prepare at (0, 1) with a 64-byte signature, for a state that has no
recorded pre-prepare at (0, 1). -/
def c7Prep : Prepare :=
  { id := 1
    view := 0
    seq_num := 1
    client_request_digest := [1]
    signature := List.replicate 64 0 }

/-- Claim C7, counterexample: a prepare whose signature is well formed (64
bytes, and valid under an accepting verification oracle) and whose view
matches, but for which no accepted pre-prepare exists at its
`(view, seq_num)`, is rejected outright — `should_accept_prepare` is false
and `process_message` emits nothing — rather than being parked in
`outstanding_prepares` (a buffer that exists only in the never-used
`MessageBank`). -/
theorem unmatched_prepare_not_parked_cex :
    c7Prep.signature.length = 64 ∧
    Prepare.is_properly_signed_by trueVerify [] c7Prep = some true ∧
    blankState.state.view = c7Prep.view ∧
    mlookup blankState.requests_seen (c7Prep.view, c7Prep.seq_num) = none ∧
    should_accept_prepare blankState c7Prep = false ∧
    processMessage blankState (Message.PrepareMessage c7Prep) = [] := by
  refine ⟨by decide, rfl, rfl, rfl, rfl, rfl⟩

/-- Claim C7 (amended): every prepare with a matching view but no recorded
pre-prepare at its `(view, seq_num)` is dropped: the admission predicate is
false and `process_message` emits nothing, retaining the message
nowhere. -/
theorem unmatched_prepare_dropped (s : InnerState) (p : Prepare)
    (hv : s.state.view = p.view)
    (hm : mlookup s.requests_seen (p.view, p.seq_num) = none) :
    should_accept_prepare s p = false ∧
    processMessage s (Message.PrepareMessage p) = [] := by
  have hacc : should_accept_prepare s p = false := by
    unfold should_accept_prepare
    rw [hv, hm]
    simp
  exact ⟨hacc, by simp [processMessage, hacc]⟩

/-- Witness for the amended claim C7 at the blank state and `c7Prep`. -/
theorem unmatched_prepare_dropped_witness :
    blankState.state.view = c7Prep.view ∧
    mlookup blankState.requests_seen (c7Prep.view, c7Prep.seq_num) = none ∧
    (should_accept_prepare blankState c7Prep = false ∧
      processMessage blankState (Message.PrepareMessage c7Prep) = []) :=
  ⟨rfl, rfl, unmatched_prepare_dropped blankState c7Prep rfl rfl⟩

/-- Claim C8: for a set request the digest stream of the code is the digest
stream of the spec with the value bytes appended a SECOND time — the value
field contributes twice, not once — and is in particular different from the
spec stream; the digest so computed is exactly what
`PrePrepare::new_with_signature` places in `client_request_digest`. -/
theorem digest_value_hashed_twice (r : ClientRequest) (v : Value) (sig : Bytes)
    (i vw sn : Nat) (h : r.value = some v) :
    r.digestInput = r.digestInputSpec ++ u32ToLeBytes v ∧
    r.digestInput ≠ r.digestInputSpec ∧
    (PrePrepare.new_with_signature sig i vw sn r).client_request_digest =
      r.digestInput := by
  have heq : r.digestInput = r.digestInputSpec ++ u32ToLeBytes v := by
    unfold ClientRequest.digestInput ClientRequest.digestInputSpec
    rw [h]
  refine ⟨heq, ?_, rfl⟩
  rw [heq]
  intro hcontra
  have hlen := congrArg List.length hcontra
  simp [u32ToLeBytes] at hlen

/-- Witness for claim C8 at the concrete set request `exReq`. -/
theorem digest_value_hashed_twice_witness :
    exReq.value = some 7 ∧
    (exReq.digestInput = exReq.digestInputSpec ++ u32ToLeBytes 7 ∧
      exReq.digestInput ≠ exReq.digestInputSpec ∧
      (PrePrepare.new_with_signature [] 0 0 0 exReq).client_request_digest =
        exReq.digestInput) :=
  ⟨rfl, digest_value_hashed_twice exReq 7 [] 0 0 0 rfl⟩

/-- A two-replica configuration in which node 0 listens on address 10 and
node 1 on address 20; the own address of node 0 is therefore 10 (that is
what `Node::new` reads from `peer_addrs`). -/
def c9Config : Config :=
  { num_nodes := 2, num_faulty := 0, peer_addrs := [(0, [10]), (1, [20])] }

/-- Claim C9, counterexample: `broadcast` on `c9Config` sends to BOTH peer
addresses, including the own address of the broadcasting replica (node 0 at
address 10) — the loop has no self-exclusion. -/
theorem broadcast_includes_self_cex :
    mlookup c9Config.peer_addrs 0 = some [10] ∧
    broadcastDestinations c9Config = [[10], [20]] ∧
    [10] ∈ broadcastDestinations c9Config := by
  refine ⟨rfl, rfl, by decide⟩

/-- Claim C9 (amended): `broadcast` fans out to every address in
`config.peer_addrs` with no exception — in particular also to the address
bound to the broadcasting replica itself. -/
theorem broadcast_sends_to_every_peer_addr (c : Config) (i : NodeId) (a : Addr)
    (h : (i, a) ∈ c.peer_addrs) :
    a ∈ broadcastDestinations c := by
  unfold broadcastDestinations
  exact List.mem_map_of_mem _ h

/-- Witness for the amended claim C9: the own address of node 0 is among
the broadcast destinations. -/
theorem broadcast_sends_to_every_peer_addr_witness :
    (0, [10]) ∈ c9Config.peer_addrs ∧ [10] ∈ broadcastDestinations c9Config :=
  ⟨by decide, broadcast_sends_to_every_peer_addr c9Config 0 [10] (by decide)⟩

end PBFT
